import Mathlib

/-!
Verification development for the Bill0 billing core
(calculation engine, ledger, and money rendering).

The TypeScript source is embedded shallowly:

* JS `number` values are modelled by `ℚ` (all arithmetic the code performs
  on them — `+ - * /`, `Math.round`, `Math.abs` — is exact rational
  arithmetic on the inputs the claims quantify over);
* JS strings are modelled by `List Char`;
* `undefined`-able fields of `Partial<...>` payloads are `Option`s;
* the non-null assertions `item.taxData!` / `item.unitPrice!.currency`,
  which throw a `TypeError` at run time when the field is absent, are
  modelled with `Except JsTypeError`;
* `Date` values are modelled by their `getTime()` millisecond value (`ℤ`);
* `uuidv4()` is modelled as a fresh-identity supply (a counter carried in
  the service state); `new Date()` inside the ledger is modelled by an
  explicit environment carrying the current year and the current ISO
  timestamp.
-/

-- ## Definitions

instance {ε α : Type _} [DecidableEq ε] [DecidableEq α] : DecidableEq (Except ε α) := fun x y =>
  match x, y with
  | .ok a, .ok b => if h : a = b then .isTrue (by rw [h]) else .isFalse (by simp [h])
  | .error a, .error b => if h : a = b then .isTrue (by rw [h]) else .isFalse (by simp [h])
  | .ok _, .error _ => .isFalse (by simp)
  | .error _, .ok _ => .isFalse (by simp)

/-- JS `Math.round x` (round half towards +∞): `⌊x + 1/2⌋`. -/
def jsRound (x : ℚ) : ℤ := ⌊x + 1/2⌋

/-- JS `Math.abs`. -/
def jsAbs (x : ℚ) : ℚ := |x|

inductive CurrencyCode where
  | USD | EUR | INR | GBP | AED | SAR
deriving DecidableEq

inductive TaxType where
  | Inclusive | Exclusive
deriving DecidableEq

inductive InvoiceStatus where
  | Draft | Finalized | Paid | Void
deriving DecidableEq

inductive InvoiceType where
  | Simplified | Full
deriving DecidableEq

/-- Structure `Money` — `amount` is in the smallest currency unit. -/
structure Money where
  amount : ℚ
  currency : CurrencyCode
deriving DecidableEq

structure TaxData where
  rate : ℚ
  type : TaxType
deriving DecidableEq

/-- Structure `ProrationDetails`.  The ISO date strings produced by `toISOString()`
are modelled by the underlying millisecond timestamp (`toISOString` is an
injective rendering of it). -/
structure ProrationDetails where
  startDate : ℤ
  endDate : ℤ
  totalDaysInPeriod : ℤ
  daysOfUse : ℤ
  factor : ℚ
deriving DecidableEq

structure Address where
  line1 : String
  line2 : Option String
  city : String
  state : Option String
  postalCode : String
  country : String
deriving DecidableEq

structure Account where
  id : String
  name : String
  email : String
  taxId : Option String
  address : Address
  currency : CurrencyCode
deriving DecidableEq

/-- The fields of `Partial<LineItem>` that `calculateLineItem` reads. -/
structure LineItemInput where
  quantity : Option ℚ
  unitPrice : Option Money
  taxData : Option TaxData
  discount : Option Money
  proration : Option ProrationDetails
deriving DecidableEq

/-- The object `calculateLineItem` returns: the input spread (`...item`)
with the computed `subtotal`, `taxAmount`, `total` overlaid. -/
structure CalculatedLineItem where
  quantity : Option ℚ
  unitPrice : Option Money
  taxData : Option TaxData
  discount : Option Money
  proration : Option ProrationDetails
  subtotal : Money
  taxAmount : Money
  total : Money
deriving DecidableEq

/-- The run-time `TypeError`s the non-null assertions in
`calculateLineItem` can raise when a required field is `undefined`. -/
inductive JsTypeError where
  /-- reading `.type` / `.rate` of `item.taxData!` when `taxData` is absent -/
  | taxDataUndefined
  /-- reading `.currency` of `item.unitPrice!` when `unitPrice` is absent -/
  | unitPriceUndefined
deriving DecidableEq

/-- Function `CalculationService.calculateLineItem`, line for line.
`item.quantity || 0` and the `item.unitPrice ? ... : 0` guard default the
numeric inputs; `item.taxData!` and `item.unitPrice!.currency` throw when
the field is absent (in source order: the tax-data access happens before
the currency access). -/
def calculateLineItem (item : LineItemInput) : Except JsTypeError CalculatedLineItem := do
  let qty : ℚ := item.quantity.getD 0
  let price : ℚ := match item.unitPrice with
    | some up => up.amount
    | none => 0
  let baseAmount0 : ℚ := price * qty
  let baseAmount : ℚ := match item.proration with
    | some pr => (jsRound (baseAmount0 * pr.factor) : ℚ)
    | none => baseAmount0
  let discountAmount : ℚ := match item.discount with
    | some d => d.amount
    | none => 0
  let taxableAmount : ℚ := baseAmount - discountAmount
  let td ← match item.taxData with
    | some td => pure td
    | none => throw JsTypeError.taxDataUndefined
  let taxAmount0 : ℚ :=
    match td.type with
    | TaxType.Exclusive => (taxableAmount * td.rate) / 100
    | TaxType.Inclusive => taxableAmount - taxableAmount / (1 + td.rate / 100)
  let taxAmount : ℚ := (jsRound taxAmount0 : ℚ)
  let currency ← match item.unitPrice with
    | some up => pure up.currency
    | none => throw JsTypeError.unitPriceUndefined
  pure { quantity := item.quantity
         unitPrice := item.unitPrice
         taxData := item.taxData
         discount := item.discount
         proration := item.proration
         subtotal := ⟨baseAmount, currency⟩
         taxAmount := ⟨taxAmount, currency⟩
         total := ⟨match td.type with
                   | TaxType.Exclusive => taxableAmount + taxAmount
                   | TaxType.Inclusive => baseAmount - discountAmount, currency⟩ }

/-- The fields of `Partial<Invoice>` that `calculateInvoice` reads. -/
structure InvoiceCalcInput where
  lineItems : Option (List LineItemInput)
  currency : Option CurrencyCode
deriving DecidableEq

/-- What `calculateInvoice` returns on top of the caller-supplied
metadata: the recalculated items and the four aggregated totals. -/
structure InvoiceCalcResult where
  lineItems : List CalculatedLineItem
  subtotal : Money
  totalTax : Money
  totalDiscount : Money
  grandTotal : Money
  currency : CurrencyCode
deriving DecidableEq

/-- One step of the `forEach` accumulation in `calculateInvoice`:
`(subtotal, totalTax, totalDiscount, grandTotal)`. -/
def invoiceAccStep (a : ℚ × ℚ × ℚ × ℚ) (item : CalculatedLineItem) : ℚ × ℚ × ℚ × ℚ :=
  (a.1 + item.subtotal.amount,
   a.2.1 + item.taxAmount.amount,
   a.2.2.1 + (match item.discount with | some d => d.amount | none => 0),
   a.2.2.2 + item.total.amount)

/-- Model of `(invoiceData.lineItems || []).map(item => this.calculateLineItem(item))`:
a sequential map in which a thrown `TypeError` aborts the whole map and
propagates. -/
def mapCalculateLineItem : List LineItemInput → Except JsTypeError (List CalculatedLineItem)
  | [] => Except.ok []
  | x :: xs => do
    let y ← calculateLineItem x
    let ys ← mapCalculateLineItem xs
    Except.ok (y :: ys)

/-- Function `CalculationService.calculateInvoice`: map every line item through
`calculateLineItem` (a thrown `TypeError` propagates), then aggregate the
four totals in one pass. -/
def calculateInvoice (invoiceData : InvoiceCalcInput) : Except JsTypeError InvoiceCalcResult := do
  let calculatedItems ← mapCalculateLineItem (invoiceData.lineItems.getD [])
  let currency := invoiceData.currency.getD CurrencyCode.USD
  let acc := calculatedItems.foldl invoiceAccStep (0, 0, 0, 0)
  pure { lineItems := calculatedItems
         subtotal := ⟨acc.1, currency⟩
         totalTax := ⟨acc.2.1, currency⟩
         totalDiscount := ⟨acc.2.2.1, currency⟩
         grandTotal := ⟨acc.2.2.2, currency⟩
         currency := currency }

/-- Milliseconds in a day (`24 * 60 * 60 * 1000`). -/
def oneDay : ℚ := 24 * 60 * 60 * 1000

/-- Function `CalculationService.calculateProration`.  `Date` arguments are their
`getTime()` millisecond values; `Date` comparisons compare those values. -/
def calculateProration (startDate endDate periodStart periodEnd : ℤ) : ProrationDetails :=
  let totalDays : ℤ := jsRound (jsAbs (((periodEnd : ℚ) - (periodStart : ℚ)) / oneDay)) + 1
  let effectiveStart : ℤ := if startDate > periodStart then startDate else periodStart
  let effectiveEnd : ℤ := if endDate < periodEnd then endDate else periodEnd
  let daysOfUse : ℤ :=
    if effectiveEnd ≥ effectiveStart then
      jsRound (jsAbs (((effectiveEnd : ℚ) - (effectiveStart : ℚ)) / oneDay)) + 1
    else 0
  let factor : ℚ := (daysOfUse : ℚ) / (totalDays : ℚ)
  { startDate := startDate
    endDate := endDate
    totalDaysInPeriod := totalDays
    daysOfUse := daysOfUse
    factor := factor }

/-- The input that refutes C7 as stated: quantity `0` with a nonzero
discount present. -/
def c7Item : LineItemInput :=
  ⟨some 0, some ⟨100, CurrencyCode.USD⟩, some ⟨10, TaxType.Exclusive⟩,
   some ⟨50, CurrencyCode.USD⟩, none⟩

/-- Spec-side notion: inclusive day count from `a` to `b` (day difference,
rounded, plus 1 to make both endpoints inclusive). -/
def inclusiveDayCount (a b : ℤ) : ℤ := jsRound (((b - a : ℤ) : ℚ) / oneDay) + 1

/-- Decimal digits of `n`, least significant first, via repeated division;
the first argument is fuel (`n` itself suffices, since a number has at
most `n` digits). -/
def natDigitsRevAux : Nat → Nat → List Char
  | 0, _ => []
  | _ + 1, 0 => []
  | fuel + 1, n + 1 => Nat.digitChar ((n + 1) % 10) :: natDigitsRevAux fuel ((n + 1) / 10)

/-- JS `Number.prototype.toString()` on a non-negative integer value. -/
def natToChars (n : Nat) : List Char :=
  if n = 0 then ['0'] else (natDigitsRevAux n n).reverse

/-- JS `Number.prototype.toString()` on an integer value. -/
def intToChars (i : ℤ) : List Char :=
  if i < 0 then '-' :: natToChars i.natAbs else natToChars i.toNat

/-- JS `String.prototype.padStart(w, '0')`. -/
def padStartZeros (w : Nat) (s : List Char) : List Char :=
  List.replicate (w - s.length) '0' ++ s

/-- JS `String.prototype.split('-')`. -/
def splitOnDash : List Char → List (List Char)
  | [] => [[]]
  | c :: rest =>
    if c = '-' then [] :: splitOnDash rest
    else
      match splitOnDash rest with
      | [] => [[c]]
      | p :: ps => (c :: p) :: ps

/-- Numeric value of a digit character. -/
def digitVal (c : Char) : Nat := c.toNat - '0'.toNat

/-- Value of a most-significant-first digit string. -/
def digitsVal (ds : List Char) : Nat := ds.foldl (fun a c => a * 10 + digitVal c) 0

/-- The digit-consuming core of JS `parseInt`: read the longest leading
run of decimal digits (trailing garbage is ignored); no digits means NaN
(`none`). -/
def parseLeadingDigits (s : List Char) : Option Nat :=
  let ds := s.takeWhile Char.isDigit
  if ds.isEmpty then none else some (digitsVal ds)

/-- Sign-and-digits part of JS `parseInt`. -/
def jsParseIntAux : List Char → Option ℤ
  | [] => none
  | c :: rest =>
    if c = '-' then (parseLeadingDigits rest).map (fun n => -(n : ℤ))
    else if c = '+' then (parseLeadingDigits rest).map (fun n => (n : ℤ))
    else (parseLeadingDigits (c :: rest)).map (fun n => (n : ℤ))

/-- JS `parseInt(s, 10)`: skip leading whitespace, allow one sign, then
read leading digits; `none` models `NaN` (which the caller filters with
`isNaN`). -/
def jsParseInt (s : List Char) : Option ℤ :=
  jsParseIntAux (s.dropWhile Char.isWhitespace)

/-- The invoice record `createInvoice` builds.  `uuidv4()` is modelled as
a fresh-identity counter, so `id : Nat`.  `seller` is
`this.sellerProfile()!` and the four totals are `invoiceData.<field>!`:
the non-null assertion is erased at run time, so a missing value is
stored as `undefined`, hence `Option`.  The optional `exchangeRate`,
`irn` and `qrCodeData` fields are never written or read by the modelled
operations and are omitted. -/
structure Invoice where
  id : Nat
  invoiceNumber : List Char
  issueDate : String
  dueDate : String
  type : InvoiceType
  status : InvoiceStatus
  seller : Option Account
  buyer : Option Account
  lineItems : List CalculatedLineItem
  subtotal : Option Money
  totalDiscount : Option Money
  totalTax : Option Money
  grandTotal : Option Money
  currency : CurrencyCode
  idempotencyKey : String
  notes : Option String
deriving DecidableEq

/-- The fields of the `Partial<Invoice>` argument of `createInvoice`.
`id`, `invoiceNumber` and `status` can be supplied by the caller (they
are present on `Partial<Invoice>`) but are never read. -/
structure InvoiceInput where
  id : Option Nat
  invoiceNumber : Option (List Char)
  issueDate : Option String
  dueDate : Option String
  type : Option InvoiceType
  status : Option InvoiceStatus
  buyer : Option Account
  lineItems : Option (List CalculatedLineItem)
  subtotal : Option Money
  totalDiscount : Option Money
  totalTax : Option Money
  grandTotal : Option Money
  currency : Option CurrencyCode
  notes : Option String
deriving DecidableEq

/-- The ambient wall clock the ledger reads via `new Date()`: the current
calendar year (`getFullYear()`) and the current ISO timestamp
(`toISOString()`). -/
structure LedgerEnv where
  year : Nat
  nowIso : String
deriving DecidableEq

/-- The mutable state of `BillingService` that the modelled operations
touch: the invoice collection, the seller profile, and the fresh-identity
supply standing in for `uuidv4()`.  The product and customer collections
and the localStorage persistence effect are not read by these
operations. -/
structure BillingState where
  invoices : List Invoice
  sellerProfile : Option Account
  nextUuid : Nat
deriving DecidableEq

/-- Function `BillingService.generateInvoiceNumber`, with the current year passed
explicitly: filter the collection to numbers starting with the
`INV-{year}-` prefix of the current year, fold for the maximum parsed
sequence (`parseInt(parts[2], 10)`, NaN skipped), and render `max + 1`
zero-padded to 4 digits.  `seqFoldStep` is the body of the
`forEach` that tracks the maximum parsed sequence. -/
def seqFoldStep (m : ℤ) (num : List Char) : ℤ :=
  match jsParseInt ((splitOnDash num).getD 2 []) with
  | some seq => if m < seq then seq else m
  | none => m

def generateInvoiceNumber (year : Nat) (invoices : List Invoice) : List Char :=
  let pfx := "INV-".toList ++ natToChars year ++ ['-']
  let yearlyInvoices := invoices.filter (fun inv => pfx.isPrefixOf inv.invoiceNumber)
  let maxSeq : ℤ := yearlyInvoices.foldl (fun m inv => seqFoldStep m inv.invoiceNumber) 0
  pfx ++ padStartZeros 4 (intToChars (maxSeq + 1))

/-- Function `BillingService.createInvoice`: return the existing record when one
already carries this idempotency key; otherwise build a fresh record
(fresh id, next invoice number, Draft status, current seller profile
snapshot) and append it to the collection. -/
def createInvoice (env : LedgerEnv) (st : BillingState) (invoiceData : InvoiceInput)
    (idempotencyKey : String) : Invoice × BillingState :=
  match st.invoices.find? (fun i => i.idempotencyKey == idempotencyKey) with
  | some existing => (existing, st)
  | none =>
    let newInvoice : Invoice :=
      { id := st.nextUuid
        invoiceNumber := generateInvoiceNumber env.year st.invoices
        issueDate := invoiceData.issueDate.getD env.nowIso
        dueDate := invoiceData.dueDate.getD env.nowIso
        status := InvoiceStatus.Draft
        type := invoiceData.type.getD InvoiceType.Simplified
        seller := st.sellerProfile
        buyer := invoiceData.buyer
        lineItems := invoiceData.lineItems.getD []
        subtotal := invoiceData.subtotal
        totalDiscount := invoiceData.totalDiscount
        totalTax := invoiceData.totalTax
        grandTotal := invoiceData.grandTotal
        currency := invoiceData.currency.getD CurrencyCode.USD
        idempotencyKey := idempotencyKey
        notes := invoiceData.notes }
    (newInvoice, { st with invoices := st.invoices ++ [newInvoice], nextUuid := st.nextUuid + 1 })

/-- A sequence of `createInvoice` calls against one ledger. -/
def runCreates (env : LedgerEnv) (st : BillingState) : List (InvoiceInput × String) → BillingState
  | [] => st
  | (d, k) :: rest => runCreates env (createInvoice env st d k).2 rest

/-- How many invoices in the collection carry idempotency key `k`. -/
def countKey (st : BillingState) (k : String) : Nat :=
  (st.invoices.filter (fun i => i.idempotencyKey == k)).length

/-- Spec-side shape of the `N`-th invoice number of a year:
`INV-{year}-{seq padded to 4 digits}`. -/
def mkInvoiceNumber (year : Nat) (seq : Nat) : List Char :=
  "INV-".toList ++ natToChars year ++ ['-'] ++ padStartZeros 4 (natToChars seq)

/-- Convenient closed inputs for witnesses. -/
def emptyInvoiceInput : InvoiceInput :=
  ⟨none, none, none, none, none, none, none, none, none, none, none, none, none, none⟩

def emptyBillingState : BillingState := ⟨[], none, 0⟩

def witnessEnv : LedgerEnv := ⟨2025, "2025-06-01T00:00:00.000Z"⟩

/-- Comma-grouping of a digit string given least-significant-digit first:
after every three digits (with more remaining) a comma is inserted. -/
def groupRev : List Char → List Char
  | [] => []
  | [a] => [a]
  | [a, b] => [a, b]
  | [a, b, c] => [a, b, c]
  | a :: b :: c :: rest => a :: b :: c :: ',' :: groupRev rest

/-- Thousands grouping of a most-significant-first digit string. -/
def group3 (ds : List Char) : List Char := (groupRev ds.reverse).reverse

/-- ECMA-402 default rounding (round half away from zero). -/
def roundHalfExpand (x : ℚ) : ℤ := if 0 ≤ x then ⌊x + 1/2⌋ else -⌊-x + 1/2⌋

/-- Model of the library call
`Intl.NumberFormat` (locale en-US, style decimal, exactly two fraction
digits) applied to `x`: round `x` to two decimals (half away from zero —
exact for the integer-cent inputs this code receives), then render sign,
comma-grouped integer part, and a two-digit fraction. -/
def intlFormatEnUS2 (x : ℚ) : List Char :=
  let n : ℤ := roundHalfExpand (x * 100)
  (if n < 0 then ['-'] else []) ++
    group3 (natToChars (n.natAbs / 100)) ++
    '.' :: padStartZeros 2 (natToChars (n.natAbs % 100))

/-- Function `formatMoney` from the PDF helper: `"currency" ++ " " ++` the
en-US decimal rendering of `amount / 100` with two fraction digits.  (The
`toFixed(2)` local `val` in the source is computed but never used.) -/
def formatMoney (amount : ℚ) (currency : List Char) : List Char :=
  currency ++ ' ' :: intlFormatEnUS2 (amount / 100)

/-- Spec-side rendering of an integer minor-unit amount: sign,
comma-grouped integer part of `|a| / 100`, then exactly two decimals of
`|a| % 100`. -/
def renderMinorUnits (a : ℤ) : List Char :=
  (if a < 0 then ['-'] else []) ++
    group3 (natToChars (a.natAbs / 100)) ++
    '.' :: padStartZeros 2 (natToChars (a.natAbs % 100))

-- ## Theorems

@[simp] theorem except_pure_eq_ok {ε α : Type _} (a : α) :
    (pure a : Except ε α) = Except.ok a := rfl

@[simp] theorem except_throw_eq_error {ε α : Type _} (e : ε) :
    (throw e : Except ε α) = Except.error e := rfl

@[simp] theorem except_bind_ok {ε α β : Type _} (a : α) (f : α → Except ε β) :
    (Bind.bind (Except.ok a) f : Except ε β) = f a := rfl

@[simp] theorem except_bind_error {ε α β : Type _} (e : ε) (f : α → Except ε β) :
    (Bind.bind (Except.error e) f : Except ε β) = Except.error e := rfl

@[simp] theorem except_map_ok {ε α β : Type _} (f : α → β) (a : α) :
    (Except.map f (Except.ok a) : Except ε β) = Except.ok (f a) := rfl

@[simp] theorem except_map_error {ε α β : Type _} (f : α → β) (e : ε) :
    (Except.map f (Except.error e) : Except ε β) = Except.error e := rfl

/-- Closed form of `calculateLineItem` on a discount-free, proration-free
item with an Exclusive tax rate. -/
theorem calculateLineItem_simple_exclusive (q p r : ℚ) (c : CurrencyCode) :
    calculateLineItem ⟨some q, some ⟨p, c⟩, some ⟨r, TaxType.Exclusive⟩, none, none⟩ =
      Except.ok { quantity := some q, unitPrice := some ⟨p, c⟩,
                  taxData := some ⟨r, TaxType.Exclusive⟩, discount := none, proration := none,
                  subtotal := ⟨p * q, c⟩,
                  taxAmount := ⟨(jsRound (p * q * r / 100) : ℚ), c⟩,
                  total := ⟨p * q + (jsRound (p * q * r / 100) : ℚ), c⟩ } := by
  simp [calculateLineItem]

/-- Closed form of `calculateLineItem` on a discount-free, proration-free
item with an Inclusive tax rate. -/
theorem calculateLineItem_simple_inclusive (q p r : ℚ) (c : CurrencyCode) :
    calculateLineItem ⟨some q, some ⟨p, c⟩, some ⟨r, TaxType.Inclusive⟩, none, none⟩ =
      Except.ok { quantity := some q, unitPrice := some ⟨p, c⟩,
                  taxData := some ⟨r, TaxType.Inclusive⟩, discount := none, proration := none,
                  subtotal := ⟨p * q, c⟩,
                  taxAmount := ⟨(jsRound (p * q - p * q / (1 + r / 100)) : ℚ), c⟩,
                  total := ⟨p * q, c⟩ } := by
  simp [calculateLineItem]

/-- C1: For every line item with quantity `q ≥ 0`, unit price amount
`p ≥ 0`, Exclusive tax at rate `r`, no discount and no proration,
`calculateLineItem` returns `subtotal.amount = q*p`,
`taxAmount.amount = round(q*p*r/100)` with the rounding applied exactly
once after the division, and
`total.amount = subtotal.amount + taxAmount.amount`. -/
theorem c1_exclusive_line_item (q p r : ℚ) (hq : 0 ≤ q) (hp : 0 ≤ p) (c : CurrencyCode) :
    ∃ out, calculateLineItem ⟨some q, some ⟨p, c⟩, some ⟨r, TaxType.Exclusive⟩, none, none⟩ =
        Except.ok out
      ∧ out.subtotal.amount = q * p
      ∧ out.taxAmount.amount = (jsRound (q * p * r / 100) : ℚ)
      ∧ out.total.amount = out.subtotal.amount + out.taxAmount.amount := by
  refine ⟨_, calculateLineItem_simple_exclusive q p r c, ?_, ?_, ?_⟩
  · exact mul_comm p q
  · rw [mul_comm p q]
  · rfl

theorem c1_exclusive_line_item_witness :
    ∃ out, calculateLineItem ⟨some 3, some ⟨100, CurrencyCode.USD⟩,
        some ⟨5, TaxType.Exclusive⟩, none, none⟩ = Except.ok out
      ∧ out.subtotal.amount = 3 * 100
      ∧ out.taxAmount.amount = (jsRound (3 * 100 * 5 / 100) : ℚ)
      ∧ out.total.amount = out.subtotal.amount + out.taxAmount.amount :=
  c1_exclusive_line_item 3 100 5 (by norm_num) (by norm_num) CurrencyCode.USD

/-- C7, counterexample: with quantity `0`, unit price `100`, Exclusive
tax at `10` and a present discount of `50`, `calculateLineItem` does not
return all-zero outputs: it returns `subtotal = 0`, `taxAmount = -5`,
`total = -55` (the taxable amount goes negative and is still taxed). -/
theorem c7_counterexample :
    ¬ ((calculateLineItem c7Item).map
        (fun o => (o.subtotal.amount, o.taxAmount.amount, o.total.amount)) =
      Except.ok ((0 : ℚ), (0 : ℚ), (0 : ℚ))) := by
  norm_num [c7Item, calculateLineItem, jsRound, Int.floor_eq_iff]

/-- C7, amended: for every input item with quantity `0`, `taxData`
and `unitPrice` present, a tax rate in the documented range (`rate ≥ 0`),
any proration, and **no (or zero) discount**, `calculateLineItem` returns
all-zero outputs.  (The original claim allowed an arbitrary discount; the
counterexample shows a nonzero discount yields nonzero tax and total.
The rate-range hypothesis keeps the Inclusive divisor `1 + rate/100`
positive — at `rate = -100` the source divides by zero.) -/
theorem c7_zero_quantity_all_zero (item : LineItemInput) (td : TaxData) (up : Money)
    (hq : item.quantity = some 0) (htd : item.taxData = some td) (hup : item.unitPrice = some up)
    (hr : 0 ≤ td.rate)
    (hd : ∀ d, item.discount = some d → d.amount = 0) :
    ∃ out, calculateLineItem item = Except.ok out
      ∧ out.subtotal.amount = 0 ∧ out.taxAmount.amount = 0 ∧ out.total.amount = 0 := by
  obtain ⟨q, upO, tdO, dO, prO⟩ := item
  simp only at hq htd hup hd
  subst hq htd hup
  have hda : (match dO with | some d => d.amount | none => (0 : ℚ)) = 0 := by
    cases dO with
    | none => rfl
    | some d => exact hd d rfl
  have hdiv : (0 : ℚ) / (1 + td.rate / 100) = 0 := by
    rcases td with ⟨r, ty⟩
    simp
  cases prO with
  | none =>
    cases dO with
    | none =>
      rcases td with ⟨r, ty⟩
      cases ty <;>
        simp_all [calculateLineItem, jsRound] <;> norm_num
    | some d =>
      have hd0 : d.amount = 0 := hd d rfl
      rcases td with ⟨r, ty⟩
      cases ty <;>
        simp_all [calculateLineItem, jsRound] <;> norm_num
  | some pr =>
    cases dO with
    | none =>
      rcases td with ⟨r, ty⟩
      cases ty <;>
        simp_all [calculateLineItem, jsRound] <;> norm_num
    | some d =>
      have hd0 : d.amount = 0 := hd d rfl
      rcases td with ⟨r, ty⟩
      cases ty <;>
        simp_all [calculateLineItem, jsRound] <;> norm_num

theorem c7_zero_quantity_all_zero_witness :
    ∃ out, calculateLineItem ⟨some 0, some ⟨100, CurrencyCode.USD⟩,
        some ⟨10, TaxType.Exclusive⟩, none, none⟩ = Except.ok out
      ∧ out.subtotal.amount = 0 ∧ out.taxAmount.amount = 0 ∧ out.total.amount = 0 :=
  c7_zero_quantity_all_zero _ _ _ rfl rfl rfl (by norm_num) (fun d h => by cases h)

/-- Bound: `round(t + x)` stays within one unit of `t` when `-1 ≤ x < 1`. -/
theorem jsRound_shift_bound (t : ℤ) (x : ℚ) (h1 : -1 ≤ x) (h2 : x < 1) :
    |(jsRound ((t : ℚ) + x) : ℚ) - (t : ℚ)| ≤ 1 := by
  rw [jsRound]
  have hlow : t - 1 ≤ ⌊(t : ℚ) + x + 1/2⌋ := Int.le_floor.mpr (by push_cast; linarith)
  have hhigh : ⌊(t : ℚ) + x + 1/2⌋ < t + 2 := Int.floor_lt.mpr (by push_cast; linarith)
  have h3 : ⌊(t : ℚ) + x + 1/2⌋ ≤ t + 1 := by omega
  rw [abs_le]
  constructor
  · have h4 : ((t - 1 : ℤ) : ℚ) ≤ (⌊(t : ℚ) + x + 1/2⌋ : ℚ) := by exact_mod_cast hlow
    push_cast at h4
    linarith
  · have h4 : ((⌊(t : ℚ) + x + 1/2⌋ : ℤ) : ℚ) ≤ ((t + 1 : ℤ) : ℚ) := by exact_mod_cast h3
    push_cast at h4
    linarith

/-- A rounding error `d ∈ [-1/2, 1/2)` scaled by `1 + s` with `s ∈ [0, 1]`
stays in `[-1, 1)`. -/
theorem rounding_error_scale_bound (d s : ℚ) (hd1 : -(1/2) ≤ d) (hd2 : d < 1/2)
    (hs0 : 0 ≤ s) (hs1 : s ≤ 1) :
    -1 ≤ d * (1 + s) ∧ d * (1 + s) < 1 := by
  constructor
  · nlinarith [mul_nonneg (by linarith : (0:ℚ) ≤ d + 1/2) (by linarith : (0:ℚ) ≤ 1 + s)]
  · nlinarith [mul_pos (by linarith : (0:ℚ) < 1/2 - d) (by linarith : (0:ℚ) < 1 + s)]

/-- Core rounding fact behind the inclusive-tax round trip: write
`t = round(G - G/(1+r/100))` for the inclusive tax carved out of a gross
`G`; then re-taxing the net `G - t` exclusively at the same rate lands
within one unit of `t`, provided `0 ≤ r ≤ 100`. -/
theorem jsRound_inclusive_exclusive_round_trip (G r : ℚ) (h0 : 0 ≤ r) (h1 : r ≤ 100) :
    |(jsRound ((G - (jsRound (G - G / (1 + r / 100)) : ℚ)) * r / 100) : ℚ) -
      (jsRound (G - G / (1 + r / 100)) : ℚ)| ≤ 1 := by
  have hs0 : (0 : ℚ) ≤ r / 100 := by positivity
  have hs1 : r / 100 ≤ 1 := by linarith
  have hpos : (0 : ℚ) < 1 + r / 100 := by linarith
  have hne : (1 + r / 100 : ℚ) ≠ 0 := ne_of_gt hpos
  have hvs : (G - G / (1 + r / 100)) * (1 + r / 100) = G * (r / 100) := by
    field_simp
    ring
  have ht1 : (jsRound (G - G / (1 + r / 100)) : ℚ) ≤ (G - G / (1 + r / 100)) + 1/2 := by
    rw [jsRound]
    exact Int.floor_le _
  have ht2 : (G - G / (1 + r / 100)) + 1/2 < (jsRound (G - G / (1 + r / 100)) : ℚ) + 1 := by
    rw [jsRound]
    exact Int.lt_floor_add_one _
  have hb := rounding_error_scale_bound
    ((G - G / (1 + r / 100)) - (jsRound (G - G / (1 + r / 100)) : ℚ)) (r / 100)
    (by linarith) (by linarith) hs0 hs1
  have harg : (G - (jsRound (G - G / (1 + r / 100)) : ℚ)) * r / 100 =
      (jsRound (G - G / (1 + r / 100)) : ℚ) +
        ((G - G / (1 + r / 100)) - (jsRound (G - G / (1 + r / 100)) : ℚ)) * (1 + r / 100) := by
    field_simp
    ring
  rw [harg]
  exact jsRound_shift_bound _ _ hb.1 hb.2

/-- C5, counterexample: the claim fails for rates above 100%: with
gross `G = 2` and rate `r = 300`, the Inclusive branch gives
`tax_incl = round(2 - 2/4) = round(1.5) = 2`, the net is `G - tax_incl = 0`,
and re-applying the Exclusive branch to that net gives `tax_excl = 0`,
so `|tax_excl - tax_incl| = 2 > 1`. -/
theorem c5_counterexample :
    (calculateLineItem ⟨some 1, some ⟨2, CurrencyCode.USD⟩,
        some ⟨300, TaxType.Inclusive⟩, none, none⟩).map (fun o => o.taxAmount.amount) =
      Except.ok 2
    ∧ (calculateLineItem ⟨some 1, some ⟨2 - 2, CurrencyCode.USD⟩,
        some ⟨300, TaxType.Exclusive⟩, none, none⟩).map (fun o => o.taxAmount.amount) =
      Except.ok 0
    ∧ ¬ (|(0 : ℚ) - 2| ≤ 1) := by
  refine ⟨?_, ?_, by norm_num⟩ <;>
    norm_num [calculateLineItem, jsRound, Int.floor_eq_iff]

/-- C5, amended: for every non-negative integer gross `G` and tax rate
`r` in the documented range `0 ≤ r ≤ 100` (the original claim allowed any
`r ≥ 0`; the counterexample at `r = 300` forces the upper bound): with
`tax_incl` the `taxAmount` of `calculateLineItem` on quantity 1, unit
price `G`, Inclusive rate `r`, and `tax_excl` the `taxAmount` of the
Exclusive branch applied to the net `G - tax_incl` at the same rate,
`|tax_excl - tax_incl| ≤ 1`. -/
theorem c5_inclusive_round_trip (G : ℕ) (r : ℚ) (h0 : 0 ≤ r) (h1 : r ≤ 100) :
    ∃ o1 o2,
      calculateLineItem ⟨some 1, some ⟨(G : ℚ), CurrencyCode.USD⟩,
        some ⟨r, TaxType.Inclusive⟩, none, none⟩ = Except.ok o1
      ∧ calculateLineItem ⟨some 1, some ⟨(G : ℚ) - o1.taxAmount.amount, CurrencyCode.USD⟩,
          some ⟨r, TaxType.Exclusive⟩, none, none⟩ = Except.ok o2
      ∧ |o2.taxAmount.amount - o1.taxAmount.amount| ≤ 1 := by
  refine ⟨_, _, calculateLineItem_simple_inclusive 1 (G : ℚ) r CurrencyCode.USD,
    calculateLineItem_simple_exclusive 1
      ((G : ℚ) - (jsRound ((G : ℚ) * 1 - (G : ℚ) * 1 / (1 + r / 100)) : ℚ)) r CurrencyCode.USD, ?_⟩
  simpa using jsRound_inclusive_exclusive_round_trip (G : ℚ) r h0 h1

theorem c5_inclusive_round_trip_witness :
    ∃ o1 o2,
      calculateLineItem ⟨some 1, some ⟨(100 : ℚ), CurrencyCode.USD⟩,
        some ⟨15, TaxType.Inclusive⟩, none, none⟩ = Except.ok o1
      ∧ calculateLineItem ⟨some 1, some ⟨(100 : ℚ) - o1.taxAmount.amount, CurrencyCode.USD⟩,
          some ⟨15, TaxType.Exclusive⟩, none, none⟩ = Except.ok o2
      ∧ |o2.taxAmount.amount - o1.taxAmount.amount| ≤ 1 := by
  have h := c5_inclusive_round_trip 100 15 (by norm_num) (by norm_num)
  simpa using h

/-- Closed form of the `forEach` accumulation in `calculateInvoice`. -/
theorem foldl_invoiceAccStep (items : List CalculatedLineItem) (a b c d : ℚ) :
    items.foldl invoiceAccStep (a, b, c, d) =
      (a + (items.map (fun i => i.subtotal.amount)).sum,
       b + (items.map (fun i => i.taxAmount.amount)).sum,
       c + (items.map (fun i => match i.discount with | some x => x.amount | none => 0)).sum,
       d + (items.map (fun i => i.total.amount)).sum) := by
  induction items generalizing a b c d with
  | nil => simp
  | cons hd tl ih =>
    simp only [List.foldl_cons, List.map_cons, List.sum_cons, invoiceAccStep, ih]
    refine Prod.ext ?_ (Prod.ext ?_ (Prod.ext ?_ ?_)) <;> simp <;> ring

/-- Summing a present-or-zero discount over all items equals summing the
amounts of exactly the present discounts. -/
theorem discount_sum_eq_filterMap (items : List CalculatedLineItem) :
    (items.map (fun i => match i.discount with | some x => x.amount | none => 0)).sum =
      ((items.filterMap (fun i => i.discount)).map (fun d => d.amount)).sum := by
  induction items with
  | nil => rfl
  | cons hd tl ih => cases h : hd.discount <;> simp [h, ih]

/-- C2: For every list of line items, `calculateInvoice` returns
invoice subtotal = sum of per-item subtotal amounts, totalTax = sum of
per-item tax amounts, totalDiscount = sum of the discount amounts of
exactly those items whose discount field is present, and grandTotal = sum
of per-item total amounts; in particular two items of `150000` and
`50000` minor units with zero tax rate and no discount yield
`subtotal.amount = 200000` and `grandTotal.amount = 200000`. -/
theorem c2_calculateInvoice_aggregation :
    (∀ inp out, calculateInvoice inp = Except.ok out →
        out.subtotal.amount = (out.lineItems.map (fun i => i.subtotal.amount)).sum
      ∧ out.totalTax.amount = (out.lineItems.map (fun i => i.taxAmount.amount)).sum
      ∧ out.totalDiscount.amount =
          ((out.lineItems.filterMap (fun i => i.discount)).map (fun d => d.amount)).sum
      ∧ out.grandTotal.amount = (out.lineItems.map (fun i => i.total.amount)).sum)
    ∧ (calculateInvoice ⟨some
          [⟨some 1, some ⟨150000, CurrencyCode.USD⟩, some ⟨0, TaxType.Exclusive⟩, none, none⟩,
           ⟨some 1, some ⟨50000, CurrencyCode.USD⟩, some ⟨0, TaxType.Exclusive⟩, none, none⟩],
          some CurrencyCode.USD⟩).map (fun o => (o.subtotal.amount, o.grandTotal.amount)) =
        Except.ok ((200000 : ℚ), (200000 : ℚ)) := by
  constructor
  · intro inp out h
    cases hm : mapCalculateLineItem (inp.lineItems.getD []) with
    | error e => simp [calculateInvoice, hm] at h
    | ok items =>
      simp only [calculateInvoice, hm, except_bind_ok, except_pure_eq_ok, Except.ok.injEq] at h
      subst h
      refine ⟨?_, ?_, ?_, ?_⟩ <;>
      · simp only [foldl_invoiceAccStep]
        simp [discount_sum_eq_filterMap]
  · norm_num [calculateInvoice, mapCalculateLineItem, calculateLineItem, invoiceAccStep, jsRound]

theorem c2_calculateInvoice_aggregation_witness :
    (calculateInvoice ⟨some
        [⟨some 2, some ⟨100, CurrencyCode.USD⟩, some ⟨5, TaxType.Exclusive⟩,
          some ⟨30, CurrencyCode.USD⟩, none⟩],
        some CurrencyCode.USD⟩).map
      (fun o => (o.subtotal.amount, o.totalTax.amount, o.totalDiscount.amount, o.grandTotal.amount)) =
      Except.ok ((200 : ℚ), (9 : ℚ), (30 : ℚ), (179 : ℚ))
    ∧ ((200 : ℚ), (9 : ℚ), (30 : ℚ), (179 : ℚ)) =
        (200, 9, 30, 179) := by
  constructor
  · norm_num [calculateInvoice, mapCalculateLineItem, calculateLineItem, invoiceAccStep, jsRound,
      Int.floor_eq_iff]
  · rfl

/-- C6: For all dates `usageStart ≤ usageEnd` and
`periodStart ≤ periodEnd`, `calculateProration` returns
`totalDaysInPeriod` = inclusive day count of the period, `daysOfUse` =
inclusive day count of the intersection of the usage window with the
period (usage bounds clamped to period bounds, `0` when the intersection
is empty), and `factor = daysOfUse / totalDaysInPeriod` as an unrounded
rational. -/
theorem c6_calculateProration (us ue ps pe : ℤ) (h1 : us ≤ ue) (h2 : ps ≤ pe) :
    (calculateProration us ue ps pe).totalDaysInPeriod = inclusiveDayCount ps pe
    ∧ (calculateProration us ue ps pe).daysOfUse =
        (if min ue pe < max us ps then 0 else inclusiveDayCount (max us ps) (min ue pe))
    ∧ (calculateProration us ue ps pe).factor =
        ((calculateProration us ue ps pe).daysOfUse : ℚ) /
          ((calculateProration us ue ps pe).totalDaysInPeriod : ℚ) := by
  have hone : (0 : ℚ) < oneDay := by norm_num [oneDay]
  have habs : ∀ a b : ℤ, a ≤ b → jsAbs (((b : ℚ) - (a : ℚ)) / oneDay) = ((b : ℚ) - a) / oneDay := by
    intro a b hab
    rw [jsAbs, abs_of_nonneg]
    apply div_nonneg _ (le_of_lt hone)
    have : (a : ℚ) ≤ (b : ℚ) := by exact_mod_cast hab
    linarith
  have hes : (if us > ps then us else ps) = max us ps := by
    split_ifs with h <;> omega
  have hee : (if ue < pe then ue else pe) = min ue pe := by
    split_ifs with h <;> omega
  refine ⟨?_, ?_, rfl⟩
  · simp only [calculateProration, inclusiveDayCount, habs ps pe h2]
    push_cast
    ring_nf
  · simp only [calculateProration, inclusiveDayCount, hes, hee]
    rcases le_or_lt (max us ps) (min ue pe) with hle | hlt
    · rw [if_pos hle, if_neg (not_lt.mpr hle), habs _ _ hle]
      push_cast
      ring_nf
    · rw [if_neg (not_le.mpr hlt), if_pos hlt]

theorem c6_calculateProration_witness :
    (calculateProration (5 * 86400000) (19 * 86400000) 0 (30 * 86400000)).totalDaysInPeriod =
        inclusiveDayCount 0 (30 * 86400000)
    ∧ (calculateProration (5 * 86400000) (19 * 86400000) 0 (30 * 86400000)).daysOfUse =
        (if min (19 * 86400000) (30 * 86400000) < max (5 * 86400000) 0 then 0
         else inclusiveDayCount (max (5 * 86400000) 0) (min (19 * 86400000) (30 * 86400000)))
    ∧ (calculateProration (5 * 86400000) (19 * 86400000) 0 (30 * 86400000)).factor =
        ((calculateProration (5 * 86400000) (19 * 86400000) 0 (30 * 86400000)).daysOfUse : ℚ) /
          ((calculateProration (5 * 86400000) (19 * 86400000) 0 (30 * 86400000)).totalDaysInPeriod : ℚ) :=
  c6_calculateProration (5 * 86400000) (19 * 86400000) 0 (30 * 86400000)
    (by norm_num) (by norm_num)

/-- The concrete reading of C6's example: a 15-day usage window fully
inside a 31-day period yields `daysOfUse = 15`, `totalDaysInPeriod = 31`
and `factor` within `1e-5` of `15/31` (it is exactly `15/31`). -/
theorem c6_example_15_of_31 :
    (calculateProration (5 * 86400000) (19 * 86400000) 0 (30 * 86400000)).daysOfUse = 15
    ∧ (calculateProration (5 * 86400000) (19 * 86400000) 0 (30 * 86400000)).totalDaysInPeriod = 31
    ∧ |(calculateProration (5 * 86400000) (19 * 86400000) 0 (30 * 86400000)).factor - 15 / 31| ≤
        1 / 100000 := by
  norm_num [calculateProration, jsRound, jsAbs, oneDay, Int.floor_eq_iff]

/-- C10: `calculateLineItem` is total on every input in which both
`taxData` and `unitPrice` are present, while an input with `unitPrice`
absent and `taxData` present fails at the currency access (the
`unitPrice` error, not the `taxData` one — a missing price amount alone
is defaulted to `0` earlier in the function). -/
theorem c10_calculateLineItem_totality :
    (∀ item : LineItemInput, item.taxData.isSome → item.unitPrice.isSome →
        ∃ out, calculateLineItem item = Except.ok out)
    ∧ calculateLineItem ⟨some 2, none, some ⟨5, TaxType.Exclusive⟩, none, none⟩ =
        Except.error JsTypeError.unitPriceUndefined := by
  constructor
  · intro item h1 h2
    obtain ⟨q, upO, tdO, dO, prO⟩ := item
    simp only [Option.isSome_iff_exists] at h1 h2
    obtain ⟨td, rfl⟩ := h1
    obtain ⟨up, rfl⟩ := h2
    exact ⟨_, rfl⟩
  · simp [calculateLineItem]

theorem c10_calculateLineItem_totality_witness :
    ∃ out, calculateLineItem ⟨some 1, some ⟨5, CurrencyCode.USD⟩,
        some ⟨0, TaxType.Exclusive⟩, none, none⟩ = Except.ok out :=
  c10_calculateLineItem_totality.1
    ⟨some 1, some ⟨5, CurrencyCode.USD⟩, some ⟨0, TaxType.Exclusive⟩, none, none⟩ rfl rfl

/-- One `createInvoice` call never pushes the number of invoices carrying
any fixed key above 1. -/
theorem countKey_createInvoice_le_one (env : LedgerEnv) (st : BillingState)
    (d : InvoiceInput) (k' k : String) (h : countKey st k ≤ 1) :
    countKey (createInvoice env st d k').2 k ≤ 1 := by
  unfold createInvoice
  cases hf : st.invoices.find? (fun i => i.idempotencyKey == k') with
  | some existing => simpa [countKey] using h
  | none =>
    by_cases hkk : k' = k
    · subst hkk
      have hz : st.invoices.filter (fun i => i.idempotencyKey == k') = [] := by
        rw [List.filter_eq_nil_iff]
        exact List.find?_eq_none.mp hf
      simp [countKey, List.filter_append, hz]
    · have hne : ((k' == k) : Bool) = false := by
        simp [hkk]
      simp only [countKey, List.filter_append, List.length_append] at *
      simpa [hne] using h

/-- Any sequence of `createInvoice` calls preserves "at most one invoice
per key". -/
theorem countKey_runCreates_le_one (calls : List (InvoiceInput × String)) (env : LedgerEnv)
    (st : BillingState) (k : String) (h : countKey st k ≤ 1) :
    countKey (runCreates env st calls) k ≤ 1 := by
  induction calls generalizing st with
  | nil => simpa [runCreates] using h
  | cons c rest ih =>
    obtain ⟨d, k'⟩ := c
    exact ih _ (countKey_createInvoice_le_one env st d k' k h)

/-- When a record with the key is already present, `createInvoice`
returns it and leaves the state unchanged. -/
theorem createInvoice_of_find_some (env : LedgerEnv) (st : BillingState) (d : InvoiceInput)
    (k : String) (inv : Invoice)
    (h : st.invoices.find? (fun i => i.idempotencyKey == k) = some inv) :
    createInvoice env st d k = (inv, st) := by
  unfold createInvoice
  rw [h]

/-- C3: (i) if an invoice with key `k` already exists, `createInvoice`
returns exactly the existing record (the first match) and leaves the
state unchanged.  (ii) Two successive calls with the same fresh key
return the same record — in particular identical ids — and grow the
collection by exactly 1, the second call changing nothing.  (iii) For any
key, at most one invoice is ever created across any number of calls. -/
theorem c3_createInvoice_idempotent :
    (∀ (env : LedgerEnv) (st : BillingState) (d : InvoiceInput) (k : String) (inv : Invoice),
      st.invoices.find? (fun i => i.idempotencyKey == k) = some inv →
        createInvoice env st d k = (inv, st))
    ∧ (∀ (env : LedgerEnv) (st : BillingState) (d d' : InvoiceInput) (k : String),
        st.invoices.find? (fun i => i.idempotencyKey == k) = none →
          (createInvoice env (createInvoice env st d k).2 d' k).1 = (createInvoice env st d k).1
          ∧ (createInvoice env (createInvoice env st d k).2 d' k).1.id = (createInvoice env st d k).1.id
          ∧ (createInvoice env st d k).2.invoices.length = st.invoices.length + 1
          ∧ (createInvoice env (createInvoice env st d k).2 d' k).2 = (createInvoice env st d k).2)
    ∧ (∀ (env : LedgerEnv) (st : BillingState) (calls : List (InvoiceInput × String)) (k : String),
        countKey st k ≤ 1 → countKey (runCreates env st calls) k ≤ 1) := by
  refine ⟨?_, ?_, ?_⟩
  · intro env st d k inv h
    exact createInvoice_of_find_some env st d k inv h
  · intro env st d d' k h
    have hsnd : (createInvoice env st d k).2.invoices =
        st.invoices ++ [(createInvoice env st d k).1] := by
      simp [createInvoice, h]
    have hkey : (createInvoice env st d k).1.idempotencyKey = k := by
      simp [createInvoice, h]
    have hfind : (createInvoice env st d k).2.invoices.find?
        (fun i => i.idempotencyKey == k) = some (createInvoice env st d k).1 := by
      rw [hsnd, List.find?_append, h]
      simp [hkey]
    have h2 := createInvoice_of_find_some env (createInvoice env st d k).2 d' k
      (createInvoice env st d k).1 hfind
    refine ⟨by rw [h2], by rw [h2], ?_, by rw [h2]⟩
    rw [hsnd]
    simp
  · intro env st calls k h
    exact countKey_runCreates_le_one calls env st k h

theorem c3_createInvoice_idempotent_witness :
    (createInvoice witnessEnv
        (createInvoice witnessEnv emptyBillingState emptyInvoiceInput "key-1").2
        emptyInvoiceInput "key-1").1 =
      (createInvoice witnessEnv emptyBillingState emptyInvoiceInput "key-1").1
    ∧ (createInvoice witnessEnv
        (createInvoice witnessEnv emptyBillingState emptyInvoiceInput "key-1").2
        emptyInvoiceInput "key-1").1.id =
      (createInvoice witnessEnv emptyBillingState emptyInvoiceInput "key-1").1.id
    ∧ (createInvoice witnessEnv emptyBillingState emptyInvoiceInput "key-1").2.invoices.length =
      emptyBillingState.invoices.length + 1
    ∧ (createInvoice witnessEnv
        (createInvoice witnessEnv emptyBillingState emptyInvoiceInput "key-1").2
        emptyInvoiceInput "key-1").2 =
      (createInvoice witnessEnv emptyBillingState emptyInvoiceInput "key-1").2 :=
  c3_createInvoice_idempotent.2.1 witnessEnv emptyBillingState emptyInvoiceInput
    emptyInvoiceInput "key-1" rfl

/-- C9: For every ledger state and every idempotency key not already
present, the invoice `createInvoice` stores and returns has status
`Draft`, the freshly generated id, and the freshly generated invoice
number, and overriding the caller-supplied `id`, `invoiceNumber` and
`status` fields of the payload (e.g. supplying `Finalized`) changes
nothing — those three fields are never read. -/
theorem c9_createInvoice_discards_caller_identity
    (env : LedgerEnv) (st : BillingState) (d : InvoiceInput) (k : String)
    (id0 : Option Nat) (num0 : Option (List Char)) (s0 : Option InvoiceStatus)
    (h : st.invoices.find? (fun i => i.idempotencyKey == k) = none) :
    createInvoice env st { d with id := id0, invoiceNumber := num0, status := s0 } k =
      createInvoice env st d k
    ∧ (createInvoice env st d k).1.status = InvoiceStatus.Draft
    ∧ (createInvoice env st d k).1.id = st.nextUuid
    ∧ (createInvoice env st d k).1.invoiceNumber = generateInvoiceNumber env.year st.invoices := by
  refine ⟨?_, ?_, ?_, ?_⟩ <;> simp [createInvoice, h]

theorem c9_createInvoice_discards_caller_identity_witness :
    createInvoice witnessEnv emptyBillingState
        { emptyInvoiceInput with
          id := some 42
          invoiceNumber := some ("INV-1999-0007".toList)
          status := some InvoiceStatus.Finalized } "key-9" =
      createInvoice witnessEnv emptyBillingState emptyInvoiceInput "key-9"
    ∧ (createInvoice witnessEnv emptyBillingState emptyInvoiceInput "key-9").1.status =
      InvoiceStatus.Draft
    ∧ (createInvoice witnessEnv emptyBillingState emptyInvoiceInput "key-9").1.id =
      emptyBillingState.nextUuid
    ∧ (createInvoice witnessEnv emptyBillingState emptyInvoiceInput "key-9").1.invoiceNumber =
      generateInvoiceNumber witnessEnv.year emptyBillingState.invoices :=
  c9_createInvoice_discards_caller_identity witnessEnv emptyBillingState emptyInvoiceInput
    "key-9" (some 42) (some ("INV-1999-0007".toList)) (some InvoiceStatus.Finalized) rfl

theorem digitChar_isDigit (m : Nat) (h : m < 10) : (Nat.digitChar m).isDigit = true := by
  interval_cases m <;> decide

theorem digitVal_digitChar (m : Nat) (h : m < 10) : digitVal (Nat.digitChar m) = m := by
  interval_cases m <;> decide

theorem isDigit_not_whitespace (c : Char) (h : c.isDigit = true) : c.isWhitespace = false := by
  simp only [Char.isWhitespace, Bool.or_eq_false_iff, decide_eq_false_iff_not]
  refine ⟨⟨⟨?_, ?_⟩, ?_⟩, ?_⟩ <;> rintro rfl <;> revert h <;> decide

theorem isDigit_ne_dash (c : Char) (h : c.isDigit = true) : c ≠ '-' := by
  rintro rfl
  revert h
  decide

theorem isDigit_ne_plus (c : Char) (h : c.isDigit = true) : c ≠ '+' := by
  rintro rfl
  revert h
  decide

theorem natDigitsRevAux_all_digits :
    ∀ (fuel n : Nat), n ≤ fuel → ∀ c ∈ natDigitsRevAux fuel n, c.isDigit = true := by
  intro fuel
  induction fuel with
  | zero => intro n _ c hc; simp [natDigitsRevAux] at hc
  | succ fuel ih =>
    intro n hn c hc
    match n with
    | 0 => simp [natDigitsRevAux] at hc
    | m + 1 =>
      simp only [natDigitsRevAux, List.mem_cons] at hc
      rcases hc with rfl | hc
      · exact digitChar_isDigit _ (Nat.mod_lt _ (by norm_num))
      · exact ih ((m + 1) / 10)
          (by
            have : (m + 1) / 10 < m + 1 := Nat.div_lt_self (Nat.succ_pos m) (by norm_num)
            omega) c hc

theorem natDigitsRevAux_ne_nil (fuel n : Nat) (h0 : 0 < n) (hn : n ≤ fuel) :
    natDigitsRevAux fuel n ≠ [] := by
  match fuel, n with
  | 0, n => omega
  | fuel + 1, 0 => omega
  | fuel + 1, m + 1 => simp [natDigitsRevAux]

theorem foldl_digitVal_natDigitsRevAux :
    ∀ (fuel n a : Nat), n ≤ fuel →
      List.foldl (fun a c => a * 10 + digitVal c) a (natDigitsRevAux fuel n).reverse =
        a * 10 ^ (natDigitsRevAux fuel n).length + n := by
  intro fuel
  induction fuel with
  | zero =>
    intro n a hn
    have : n = 0 := by omega
    subst this
    simp [natDigitsRevAux]
  | succ fuel ih =>
    intro n a hn
    match n with
    | 0 => simp [natDigitsRevAux]
    | m + 1 =>
      have hdiv : (m + 1) / 10 ≤ fuel := by
        have : (m + 1) / 10 < m + 1 := Nat.div_lt_self (Nat.succ_pos m) (by norm_num)
        omega
      simp only [natDigitsRevAux, List.reverse_cons, List.foldl_append, List.length_cons]
      rw [ih ((m + 1) / 10) a hdiv]
      simp only [List.foldl_cons, List.foldl_nil]
      rw [digitVal_digitChar _ (Nat.mod_lt _ (by norm_num))]
      rw [pow_succ]
      have := Nat.div_add_mod (m + 1) 10
      ring_nf
      omega

theorem natToChars_all_digits (n : Nat) : ∀ c ∈ natToChars n, c.isDigit = true := by
  intro c hc
  unfold natToChars at hc
  split at hc
  · simp at hc
    subst hc
    decide
  · rw [List.mem_reverse] at hc
    exact natDigitsRevAux_all_digits n n le_rfl c hc

theorem natToChars_ne_nil (n : Nat) : natToChars n ≠ [] := by
  unfold natToChars
  split
  · simp
  · simp only [ne_eq, List.reverse_eq_nil_iff]
    exact natDigitsRevAux_ne_nil n n (by omega) le_rfl

theorem digitsVal_natToChars (n : Nat) : digitsVal (natToChars n) = n := by
  unfold natToChars digitsVal
  split
  · subst ‹n = 0›
    decide
  · rw [foldl_digitVal_natDigitsRevAux n n 0 le_rfl]
    simp

theorem padStartZeros_all_digits (w : Nat) (s : List Char)
    (h : ∀ c ∈ s, c.isDigit = true) : ∀ c ∈ padStartZeros w s, c.isDigit = true := by
  intro c hc
  unfold padStartZeros at hc
  rw [List.mem_append] at hc
  rcases hc with hc | hc
  · rw [List.eq_of_mem_replicate hc]
    decide
  · exact h c hc

theorem foldl_digitVal_replicate_zero (z : Nat) :
    List.foldl (fun a c => a * 10 + digitVal c) 0 (List.replicate z '0') = 0 := by
  induction z with
  | zero => rfl
  | succ z ih => simpa [List.replicate_succ, digitVal]

theorem digitsVal_padStartZeros (w : Nat) (s : List Char) :
    digitsVal (padStartZeros w s) = digitsVal s := by
  unfold padStartZeros digitsVal
  rw [List.foldl_append, foldl_digitVal_replicate_zero]

theorem padStartZeros_ne_nil (w : Nat) (s : List Char) (h : s ≠ []) :
    padStartZeros w s ≠ [] := by
  unfold padStartZeros
  simp [h]

theorem takeWhile_of_all {p : Char → Bool} :
    ∀ (l : List Char), (∀ c ∈ l, p c = true) → l.takeWhile p = l := by
  intro l
  induction l with
  | nil => intro _; rfl
  | cons c rest ih =>
    intro h
    rw [List.takeWhile_cons, h c (by simp)]
    simp [ih fun x hx => h x (by simp [hx])]

theorem parseLeadingDigits_of_digits (s : List Char) (hne : s ≠ [])
    (h : ∀ c ∈ s, c.isDigit = true) : parseLeadingDigits s = some (digitsVal s) := by
  unfold parseLeadingDigits
  rw [takeWhile_of_all s h]
  simp [hne]

theorem jsParseInt_of_digits (s : List Char) (hne : s ≠ [])
    (h : ∀ c ∈ s, c.isDigit = true) : jsParseInt s = some ((digitsVal s : Nat) : ℤ) := by
  match s, hne with
  | c :: rest, _ =>
    have hc : c.isDigit = true := h c (by simp)
    have hdrop : (c :: rest).dropWhile Char.isWhitespace = c :: rest := by
      rw [List.dropWhile_cons, isDigit_not_whitespace c hc]
      simp
    unfold jsParseInt
    rw [hdrop]
    show (if c = '-' then _ else if c = '+' then _ else
      (parseLeadingDigits (c :: rest)).map (fun n => (n : ℤ))) = _
    rw [if_neg (isDigit_ne_dash c hc), if_neg (isDigit_ne_plus c hc)]
    rw [parseLeadingDigits_of_digits _ (by simp) h]
    rfl

theorem splitOnDash_of_no_dash :
    ∀ (s : List Char), (∀ c ∈ s, c ≠ '-') → splitOnDash s = [s] := by
  intro s
  induction s with
  | nil => intro _; rfl
  | cons c rest ih =>
    intro h
    unfold splitOnDash
    rw [if_neg (h c (by simp))]
    rw [ih fun x hx => h x (by simp [hx])]

theorem splitOnDash_append_dash :
    ∀ (a b : List Char), (∀ c ∈ a, c ≠ '-') →
      splitOnDash (a ++ '-' :: b) = a :: splitOnDash b := by
  intro a b
  induction a with
  | nil =>
    intro _
    simp [splitOnDash]
  | cons c rest ih =>
    intro h
    have hrec := ih fun x hx => h x (by simp [hx])
    have hstep : splitOnDash ((c :: rest) ++ '-' :: b) =
        (if c = '-' then [] :: splitOnDash (rest ++ '-' :: b)
         else match splitOnDash (rest ++ '-' :: b) with
           | [] => [[c]]
           | p :: ps => (c :: p) :: ps) := rfl
    rw [hstep, if_neg (h c (by simp)), hrec]

theorem isPrefixOf_append_self (l t : List Char) : l.isPrefixOf (l ++ t) = true := by
  induction l with
  | nil => simp [List.isPrefixOf]
  | cons c rest ih => simp [List.isPrefixOf, ih]

theorem yearPrefix_isPrefixOf_mkInvoiceNumber (year seq : Nat) :
    ("INV-".toList ++ natToChars year ++ ['-']).isPrefixOf (mkInvoiceNumber year seq) = true := by
  have h : mkInvoiceNumber year seq =
      ("INV-".toList ++ natToChars year ++ ['-']) ++ padStartZeros 4 (natToChars seq) := by
    simp [mkInvoiceNumber, List.append_assoc]
  rw [h]
  exact isPrefixOf_append_self _ _

theorem splitOnDash_mkInvoiceNumber (year seq : Nat) :
    splitOnDash (mkInvoiceNumber year seq) =
      [['I', 'N', 'V'], natToChars year, padStartZeros 4 (natToChars seq)] := by
  have h : mkInvoiceNumber year seq =
      ['I', 'N', 'V'] ++ '-' :: (natToChars year ++ '-' :: padStartZeros 4 (natToChars seq)) := by
    simp [mkInvoiceNumber]
  rw [h, splitOnDash_append_dash _ _ (by decide)]
  rw [splitOnDash_append_dash _ _
    (fun c hc => isDigit_ne_dash c (natToChars_all_digits year c hc))]
  rw [splitOnDash_of_no_dash _
    (fun c hc => isDigit_ne_dash c
      (padStartZeros_all_digits 4 _ (natToChars_all_digits seq) c hc))]

theorem jsParseInt_part2_mkInvoiceNumber (year seq : Nat) :
    jsParseInt ((splitOnDash (mkInvoiceNumber year seq)).getD 2 []) = some (seq : ℤ) := by
  rw [splitOnDash_mkInvoiceNumber]
  show jsParseInt (padStartZeros 4 (natToChars seq)) = some (seq : ℤ)
  rw [jsParseInt_of_digits _ (padStartZeros_ne_nil _ _ (natToChars_ne_nil seq))
    (padStartZeros_all_digits 4 _ (natToChars_all_digits seq))]
  rw [digitsVal_padStartZeros, digitsVal_natToChars]

theorem mkInvoiceNumber_inj (year a b : Nat)
    (h : mkInvoiceNumber year a = mkInvoiceNumber year b) : a = b := by
  have ha := jsParseInt_part2_mkInvoiceNumber year a
  rw [h, jsParseInt_part2_mkInvoiceNumber year b] at ha
  simp only [Option.some.injEq] at ha
  exact_mod_cast ha.symm

theorem foldl_seqFoldStep_range (year : Nat) :
    ∀ k : Nat, ((List.range k).map (fun i => mkInvoiceNumber year (i + 1))).foldl seqFoldStep 0 =
      (k : ℤ) := by
  intro k
  induction k with
  | zero => rfl
  | succ k ih =>
    rw [List.range_succ, List.map_append, List.foldl_append, ih]
    simp only [List.map_cons, List.map_nil, List.foldl_cons, List.foldl_nil]
    unfold seqFoldStep
    rw [jsParseInt_part2_mkInvoiceNumber]
    have hlt : (k : ℤ) < ((k + 1 : Nat) : ℤ) := by push_cast; omega
    simp [hlt]

theorem generateInvoiceNumber_closed (year : Nat) (invoices : List Invoice) (k : Nat)
    (h : invoices.map (fun i => i.invoiceNumber) =
      (List.range k).map (fun i => mkInvoiceNumber year (i + 1))) :
    generateInvoiceNumber year invoices = mkInvoiceNumber year (k + 1) := by
  simp only [generateInvoiceNumber]
  have hfilter : invoices.filter
      (fun inv => ("INV-".toList ++ natToChars year ++ ['-']).isPrefixOf inv.invoiceNumber) =
      invoices := by
    rw [List.filter_eq_self]
    intro inv hinv
    have hmem : inv.invoiceNumber ∈ invoices.map (fun i => i.invoiceNumber) :=
      List.mem_map_of_mem _ hinv
    rw [h] at hmem
    simp only [List.mem_map, List.mem_range] at hmem
    obtain ⟨i, _, hnum⟩ := hmem
    rw [← hnum]
    exact yearPrefix_isPrefixOf_mkInvoiceNumber year (i + 1)
  rw [hfilter]
  have hfold : invoices.foldl (fun m inv => seqFoldStep m inv.invoiceNumber) 0 = (k : ℤ) := by
    rw [← List.foldl_map (fun i => i.invoiceNumber) seqFoldStep invoices 0, h]
    exact foldl_seqFoldStep_range year k
  rw [hfold]
  have hint : intToChars ((k : ℤ) + 1) = natToChars (k + 1) := by
    unfold intToChars
    rw [if_neg (by omega : ¬((k : ℤ) + 1 < 0))]
    congr 1
  rw [hint, mkInvoiceNumber]

/-- Invariant carried through a run of `createInvoice` calls with fresh,
pairwise-distinct keys: the collection's numbers are exactly
`INV-{year}-0001 ..` in creation order. -/
theorem runCreates_invoiceNumbers (env : LedgerEnv) :
    ∀ (calls : List (InvoiceInput × String)) (st : BillingState),
      st.invoices.map (fun i => i.invoiceNumber) =
        (List.range st.invoices.length).map (fun i => mkInvoiceNumber env.year (i + 1)) →
      (st.invoices.map (fun i => i.idempotencyKey) ++ calls.map Prod.snd).Nodup →
      (runCreates env st calls).invoices.map (fun i => i.invoiceNumber) =
        (List.range (st.invoices.length + calls.length)).map
          (fun i => mkInvoiceNumber env.year (i + 1)) := by
  intro calls
  induction calls with
  | nil =>
    intro st h _
    simpa [runCreates] using h
  | cons c rest ih =>
    obtain ⟨d, k⟩ := c
    intro st h hnd
    have hk : k ∉ st.invoices.map (fun i => i.idempotencyKey) := by
      rw [List.nodup_append] at hnd
      exact fun hmem => hnd.2.2 hmem (by simp)
    have hfind : st.invoices.find? (fun i => i.idempotencyKey == k) = none := by
      rw [List.find?_eq_none]
      intro inv hinv hbeq
      apply hk
      have heq : inv.idempotencyKey = k := by simpa using hbeq
      rw [← heq]
      exact List.mem_map_of_mem _ hinv
    have hsnd : (createInvoice env st d k).2.invoices =
        st.invoices ++ [(createInvoice env st d k).1] := by
      simp [createInvoice, hfind]
    have hnum : (createInvoice env st d k).1.invoiceNumber =
        generateInvoiceNumber env.year st.invoices := by
      simp [createInvoice, hfind]
    have hkey : (createInvoice env st d k).1.idempotencyKey = k := by
      simp [createInvoice, hfind]
    have hmap' : (createInvoice env st d k).2.invoices.map (fun i => i.invoiceNumber) =
        (List.range (st.invoices.length + 1)).map (fun i => mkInvoiceNumber env.year (i + 1)) := by
      rw [hsnd, List.map_append, h, List.range_succ, List.map_append]
      simp only [List.map_cons, List.map_nil]
      rw [hnum, generateInvoiceNumber_closed env.year st.invoices st.invoices.length h]
    have hlen' : (createInvoice env st d k).2.invoices.length = st.invoices.length + 1 := by
      rw [hsnd]
      simp
    have hkeys' : (createInvoice env st d k).2.invoices.map (fun i => i.idempotencyKey) =
        st.invoices.map (fun i => i.idempotencyKey) ++ [k] := by
      rw [hsnd, List.map_append]
      simp only [List.map_cons, List.map_nil]
      rw [hkey]
    have hnd' : ((createInvoice env st d k).2.invoices.map (fun i => i.idempotencyKey) ++
        rest.map Prod.snd).Nodup := by
      rw [hkeys', List.append_assoc]
      simpa using hnd
    have hrec := ih (createInvoice env st d k).2 (by rw [hlen']; exact hmap') hnd'
    rw [hlen'] at hrec
    have hlen2 : st.invoices.length + 1 + rest.length =
        st.invoices.length + (rest.length + 1) := by omega
    rw [hlen2] at hrec
    simpa [runCreates] using hrec

/-- C4: Starting from an empty ledger, `N` sequential `createInvoice`
calls with pairwise-distinct idempotency keys within a single calendar
year assign invoice numbers exactly `INV-{year}-0001` through the zero-
padded `N`-th number, in creation order, with no duplicates and no skips
(the next sequence is always one more than the maximum parsed existing
sequence). -/
theorem c4_sequential_invoice_numbers (env : LedgerEnv) (prof : Option Account) (n0 : Nat)
    (calls : List (InvoiceInput × String)) (hk : (calls.map Prod.snd).Nodup) :
    (runCreates env ⟨[], prof, n0⟩ calls).invoices.map (fun i => i.invoiceNumber) =
      (List.range calls.length).map (fun i => mkInvoiceNumber env.year (i + 1))
    ∧ ((runCreates env ⟨[], prof, n0⟩ calls).invoices.map (fun i => i.invoiceNumber)).Nodup := by
  have h := runCreates_invoiceNumbers env calls ⟨[], prof, n0⟩ (by simp) (by simpa using hk)
  simp only [List.length_nil, Nat.zero_add] at h
  refine ⟨h, ?_⟩
  rw [h]
  refine List.Nodup.map ?_ (List.nodup_range _)
  intro a b hab
  have := mkInvoiceNumber_inj env.year (a + 1) (b + 1) hab
  omega

theorem c4_sequential_invoice_numbers_witness :
    (runCreates witnessEnv ⟨[], none, 0⟩
        [(emptyInvoiceInput, "a"), (emptyInvoiceInput, "b")]).invoices.map
        (fun i => i.invoiceNumber) =
      (List.range 2).map (fun i => mkInvoiceNumber witnessEnv.year (i + 1))
    ∧ ((runCreates witnessEnv ⟨[], none, 0⟩
        [(emptyInvoiceInput, "a"), (emptyInvoiceInput, "b")]).invoices.map
        (fun i => i.invoiceNumber)).Nodup :=
  c4_sequential_invoice_numbers witnessEnv none 0
    [(emptyInvoiceInput, "a"), (emptyInvoiceInput, "b")] (by decide)

theorem roundHalfExpand_intCast (a : ℤ) : roundHalfExpand ((a : ℚ)) = a := by
  unfold roundHalfExpand
  split_ifs with h
  · rw [Int.floor_int_add]
    norm_num
  · have hneg : -((a : ℚ)) = (((-a) : ℤ) : ℚ) := by push_cast; ring
    rw [hneg, Int.floor_int_add]
    norm_num

/-- C8: For every integer amount in smallest currency units and every
currency code string, `formatMoney` returns the currency code, a space,
and `amount/100` rendered with exactly two decimal places and comma
thousands separators; in particular
`formatMoney 100000000 "USD" = "USD 1,000,000.00"`. -/
theorem c8_formatMoney_contract :
    (∀ (a : ℤ) (currency : List Char),
      formatMoney (a : ℚ) currency = currency ++ ' ' :: renderMinorUnits a)
    ∧ formatMoney ((100000000 : ℤ) : ℚ) "USD".toList = "USD 1,000,000.00".toList := by
  have huniv : ∀ (a : ℤ) (currency : List Char),
      formatMoney (a : ℚ) currency = currency ++ ' ' :: renderMinorUnits a := by
    intro a currency
    unfold formatMoney intlFormatEnUS2 renderMinorUnits
    have hx : ((a : ℚ) / 100) * 100 = (a : ℚ) := div_mul_cancel₀ _ (by norm_num)
    rw [hx, roundHalfExpand_intCast]
  refine ⟨huniv, ?_⟩
  rw [huniv 100000000 "USD".toList]
  decide
